import Mathlib

/-!
Verification of the ingestion-and-retrieval pipeline of the AI image
captioning API (`app/services/ml_service.py`, `app/routers/images.py`).

Vectors produced by the embedding encoder are numpy `float32` arrays.  The
codec (`MLService.serialize_embedding` / `MLService.deserialize_embedding`)
is `pickle.dumps` / `pickle.loads`; a pickled `float32` array is a framed
byte string holding the array's length and the raw 4-byte element buffer,
and unpickling reconstructs the array exactly (bit-for-bit) whenever the
frame is well formed and the recorded length matches the buffer.  We model
an element by its 32-bit pattern (a natural number below 2^32), a byte
string by a list of naturals below 256, and unpickling failure
(`pickle.UnpicklingError` on a malformed blob) by `none`.  The model
performs exactly the consistency checks unpickling performs — framing and
length-versus-buffer agreement — and, like `pickle.loads`, no check against
any deployment dimension `D`.
-/

/-- Little-endian 4-byte encoding of one 32-bit element (one `float32` bit
pattern) inside the pickled buffer. -/
def word32ToBytes (w : ℕ) : List ℕ :=
  [w % 256, w / 256 % 256, w / 65536 % 256, w / 16777216 % 256]

/-- Reassemble one 32-bit element from its four little-endian bytes. -/
def bytesToWord32 (b0 b1 b2 b3 : ℕ) : ℕ :=
  b0 + 256 * b1 + 65536 * b2 + 16777216 * b3

/-- Raw element buffer of a pickled `float32` array: the elements' 4-byte
encodings in order. -/
def wordsToBytes : List ℕ → List ℕ
  | [] => []
  | w :: ws => word32ToBytes w ++ wordsToBytes ws

/-- Parse a raw element buffer back into elements; fails when the buffer
length is not a multiple of the 4-byte element size. -/
def bytesToWords : List ℕ → Option (List ℕ)
  | [] => some []
  | b0 :: b1 :: b2 :: b3 :: rest =>
      (bytesToWords rest).map (fun ws => bytesToWord32 b0 b1 b2 b3 :: ws)
  | _ => none

/-- Model of `MLService.serialize_embedding` (`pickle.dumps` applied to the
`float32` embedding array): a two-byte pickle frame header, the array
length, then the raw element buffer. -/
def serialize_embedding (v : List ℕ) : List ℕ :=
  128 :: 4 :: (word32ToBytes v.length ++ wordsToBytes v)

/-- Model of `MLService.deserialize_embedding` (`pickle.loads`): checks the
frame header and that the recorded length matches the buffer, and rebuilds
the array.  `none` models the untyped `pickle.UnpicklingError` raised on a
malformed blob.  No deployment dimension is consulted. -/
def deserialize_embedding (b : List ℕ) : Option (List ℕ) :=
  match b with
  | 128 :: 4 :: n0 :: n1 :: n2 :: n3 :: payload =>
      match bytesToWords payload with
      | none => none
      | some ws =>
          if ws.length = bytesToWord32 n0 n1 n2 n3 then some ws else none
  | _ => none

lemma bytesToWord32_word32ToBytes (w : ℕ) (h : w < 4294967296) :
    bytesToWord32 (w % 256) (w / 256 % 256) (w / 65536 % 256)
      (w / 16777216 % 256) = w := by
  unfold bytesToWord32
  omega

lemma bytesToWords_wordsToBytes (v : List ℕ) (h : ∀ w ∈ v, w < 4294967296) :
    bytesToWords (wordsToBytes v) = some v := by
  induction v with
  | nil => rfl
  | cons w ws ih =>
      have hw : w < 4294967296 := h w (List.mem_cons_self w ws)
      have hws : ∀ x ∈ ws, x < 4294967296 := fun x hx => h x (List.mem_cons_of_mem w hx)
      simp only [wordsToBytes, word32ToBytes, List.cons_append, List.nil_append,
        List.append_eq, bytesToWords, ih hws, Option.map_some']
      rw [bytesToWord32_word32ToBytes w hw]

/-- Round trip of the codec on any well-formed element list. -/
lemma deserialize_serialize (v : List ℕ) (hv : ∀ w ∈ v, w < 4294967296)
    (hlen : v.length < 4294967296) :
    deserialize_embedding (serialize_embedding v) = some v := by
  simp [serialize_embedding, word32ToBytes, List.cons_append, List.nil_append,
    deserialize_embedding, bytesToWords_wordsToBytes v hv,
    bytesToWord32_word32ToBytes v.length hlen]

/-- C1: for every vector `v` produced by the embedding encoder (any list of
`float32` bit patterns), serializing with the codec and deserializing the
resulting bytes yields exactly `v`, component-wise. -/
theorem serialize_roundtrip_exact (v : List ℕ) (hv : ∀ w ∈ v, w < 4294967296)
    (hlen : v.length < 4294967296) :
    deserialize_embedding (serialize_embedding v) = some v :=
  deserialize_serialize v hv hlen

/-- Witness for C1 at a concrete two-component vector. -/
theorem serialize_roundtrip_exact_witness :
    (∀ w ∈ [3, 4294967295], w < 4294967296) ∧
      deserialize_embedding (serialize_embedding [3, 4294967295]) =
        some [3, 4294967295] :=
  ⟨by decide, serialize_roundtrip_exact [3, 4294967295] (by decide) (by decide)⟩

/-- C5 counterexample: blobs pickled from vectors of two different lengths
both deserialize successfully, so for any fixed deployment dimension `D` at
least one blob of the wrong dimension decodes without any error. -/
theorem deserialize_accepts_any_dimension :
    deserialize_embedding (serialize_embedding [5]) = some [5] ∧
      deserialize_embedding (serialize_embedding [5, 7]) = some [5, 7] ∧
      ([5] : List ℕ).length ≠ ([5, 7] : List ℕ).length := by
  decide

/-- C5 amended: `deserialize_embedding` (`pickle.loads`) validates only the
pickle frame, never the deployment dimension `D`: a well-formed blob of any
length decodes silently to a vector of that length, even when it differs
from `D`; only a malformed frame (for example a buffer that is not a
multiple of the element size) makes deserialization fail, with the untyped
unpickling failure — the code has no `CorruptVectorError`. -/
theorem deserialize_no_dimension_check (v : List ℕ) (D : ℕ)
    (hv : ∀ w ∈ v, w < 4294967296) (hlen : v.length < 4294967296)
    (hD : v.length ≠ D) :
    (∃ w, deserialize_embedding (serialize_embedding v) = some w ∧
        w.length ≠ D) ∧
      deserialize_embedding [128, 4, 1, 0, 0, 0, 9] = none :=
  ⟨⟨v, deserialize_serialize v hv hlen, hD⟩, by decide⟩

/-- Witness for the amended C5 at the one-component vector and `D = 384`
(the dimension of the deployed embedding model). -/
theorem deserialize_no_dimension_check_witness :
    ((∀ w ∈ [5], w < 4294967296) ∧ ([5] : List ℕ).length < 4294967296 ∧
        ([5] : List ℕ).length ≠ 384) ∧
      (∃ w, deserialize_embedding (serialize_embedding [5]) = some w ∧
          w.length ≠ 384) ∧
        deserialize_embedding [128, 4, 1, 0, 0, 0, 9] = none :=
  ⟨⟨by decide, by decide, by decide⟩,
    deserialize_no_dimension_check [5] 384 (by decide) (by decide) (by decide)⟩

/-!
Similarity scoring.  `MLService.calculate_similarity` scores each stored
embedding against the query with `sklearn.metrics.pairwise.cosine_similarity`,
which L2-normalizes both vectors — replacing a zero norm by `1`, so a
zero-magnitude vector stays zero instead of producing NaN — and takes the
dot product.  We model the float vectors by lists of reals: for exact real
arithmetic, normalize-then-dot equals the dot product divided by the
product of the fixed-up norms.
-/

/-- Dot product of two vectors, as summed by the similarity kernel. -/
def dotList (x y : List ℝ) : ℝ := (List.zipWith (fun a b => a * b) x y).sum

/-- Sum of squared components; its square root is the L2 norm. -/
def sumSq (x : List ℝ) : ℝ := (x.map (fun a => a * a)).sum

/-- L2 norm with sklearn's zero-norm fix-up: a zero norm is replaced by `1`
before the division, so a zero vector is left unscaled. -/
noncomputable def normFix (x : List ℝ) : ℝ :=
  if sumSq x = 0 then 1 else Real.sqrt (sumSq x)

/-- Per-pair score of `MLService.calculate_similarity`:
`cosine_similarity([q], [s])[0][0]`, i.e. the dot product of the two
normalized vectors. -/
noncomputable def cosine_similarity (x y : List ℝ) : ℝ :=
  dotList x y / (normFix x * normFix y)

/-- Model of `MLService.calculate_similarity`: the query scored against each
stored embedding in order. -/
noncomputable def calculate_similarity (q : List ℝ) (stored : List (List ℝ)) :
    List ℝ :=
  stored.map (fun s => cosine_similarity q s)

lemma sumSq_nonneg (x : List ℝ) : 0 ≤ sumSq x := by
  induction x with
  | nil => simp [sumSq]
  | cons a l ih =>
      simp only [sumSq, List.map_cons, List.sum_cons] at ih ⊢
      have := mul_self_nonneg a
      linarith

lemma dotList_eq_zero_left (x y : List ℝ) (h : sumSq x = 0) :
    dotList x y = 0 := by
  induction x generalizing y with
  | nil => simp [dotList]
  | cons a l ih =>
      cases y with
      | nil => simp [dotList]
      | cons b m =>
          simp only [sumSq, List.map_cons, List.sum_cons] at h
          have hl : 0 ≤ sumSq l := sumSq_nonneg l
          have ha2 : 0 ≤ a * a := mul_self_nonneg a
          have ha : a * a = 0 := by
            simp only [sumSq] at hl
            linarith
          have ha0 : a = 0 := by
            rcases mul_self_eq_zero.mp ha with rfl
            rfl
          have hsl : sumSq l = 0 := by
            simp only [sumSq] at h ⊢
            linarith
          simp only [dotList, List.zipWith_cons_cons, List.sum_cons] at ih ⊢
          rw [ha0, zero_mul, zero_add]
          exact ih m hsl

lemma dotList_comm (x y : List ℝ) : dotList x y = dotList y x := by
  unfold dotList
  rw [List.zipWith_comm_of_comm (fun a b => a * b) (fun a b => mul_comm a b)]

/-- C8: whenever either vector has zero magnitude, the per-candidate score
is exactly `0` — no NaN and no error arises, and the candidate stays
sortable. -/
theorem cosine_similarity_zero_magnitude (x y : List ℝ)
    (h : sumSq x = 0 ∨ sumSq y = 0) :
    cosine_similarity x y = 0 := by
  rcases h with h | h
  · rw [cosine_similarity, dotList_eq_zero_left x y h, zero_div]
  · rw [cosine_similarity, dotList_comm, dotList_eq_zero_left y x h, zero_div]

/-- Witness for C8 at the zero vector against `[1, 2]`. -/
theorem cosine_similarity_zero_magnitude_witness :
    (sumSq [(0 : ℝ), 0] = 0 ∨ sumSq [(1 : ℝ), 2] = 0) ∧
      cosine_similarity [(0 : ℝ), 0] [(1 : ℝ), 2] = 0 :=
  ⟨Or.inl (by simp [sumSq]),
    cosine_similarity_zero_magnitude [(0 : ℝ), 0] [(1 : ℝ), 2]
      (Or.inl (by simp [sumSq]))⟩

/-!
Retrieval pipeline, `search_images` in `app/routers/images.py`.  The handler
embeds the query, loads all stored records, returns an empty response when
the store is empty, deserializes every stored blob (an exception from
`deserialize_embedding` propagates to the handler's generic `except` clause,
which answers HTTP 500), scores the candidates, filters by
`similarity >= threshold`, sorts descending by score with Python's stable
`list.sort(key=..., reverse=True)`, truncates to `limit`, and reports
`total_results = len(results)`.  Scores are floats; the ranking claims hold
for an arbitrary scoring function, so the pipeline is parametrized by the
query embedding together with a rational-valued scoring function standing
for `calculate_similarity`, and Python's stable sort is modelled by a
stable insertion sort (stability plus descending order determine the result
of any stable sort extensionally).
-/

/-- Stored row of the `images` table, as read back during search. -/
structure ImageRecord where
  id : ℕ
  filename : String
  caption : String
  embedding : List ℕ
  upload_time : String
  file_size : ℕ
  content_type : String
deriving DecidableEq

/-- Response item of the search endpoint. -/
structure ImageResponse where
  id : ℕ
  filename : String
  caption : String
  upload_time : String
  file_size : ℕ
  content_type : String
  similarity_score : Option ℚ
deriving DecidableEq

/-- Response envelope of the search endpoint. -/
structure SearchResponse where
  query : String
  total_results : ℕ
  results : List ImageResponse
deriving DecidableEq

/-- HTTP failures the search endpoint can answer: the generic handler's 500,
and the framework's 422 for an out-of-range query parameter. -/
inductive SearchError where
  | internalServerError : SearchError
  | unprocessableEntity : SearchError
deriving DecidableEq

/-- Model of `round(similarity, 4)` applied to the reported score. -/
def round4 (q : ℚ) : ℚ := (round (q * 10000) : ℤ) / 10000

/-- Build one `ImageResponse` from a scored record (search handler body). -/
def mkImageResponse (img : ImageRecord) (s : ℚ) : ImageResponse :=
  { id := img.id, filename := img.filename, caption := img.caption,
    upload_time := img.upload_time, file_size := img.file_size,
    content_type := img.content_type, similarity_score := some (round4 s) }

/-- Insert one scored candidate into an already-sorted list, after every
earlier candidate with an equal or higher score: the insertion step of a
stable descending sort. -/
def insertDesc {α : Type} (x : α × ℚ) : List (α × ℚ) → List (α × ℚ)
  | [] => [x]
  | y :: ys => if y.2 ≤ x.2 then x :: y :: ys else y :: insertDesc x ys

/-- Stable descending-by-score sort: the extensional behaviour of Python's
`list.sort(key=lambda x: x[1], reverse=True)`, which is documented to be
stable. -/
def sortDesc {α : Type} : List (α × ℚ) → List (α × ℚ)
  | [] => []
  | x :: xs => insertDesc x (sortDesc xs)

/-- Ranking step of the search handler: keep candidates with
`similarity >= threshold`, sort descending by score (stable), truncate to
`limit`. -/
def rank {α : Type} (threshold : ℚ) (limit : ℕ) (pairs : List (α × ℚ)) :
    List (α × ℚ) :=
  (sortDesc (pairs.filter (fun p => threshold ≤ p.2))).take limit

/-- Decode loop of the search handler: deserialize each stored record's
blob in order; the first failure raises, aborting the loop. -/
def decodeAll : List ImageRecord → Option (List (List ℕ))
  | [] => some []
  | img :: rest =>
      match deserialize_embedding img.embedding with
      | none => none
      | some v => (decodeAll rest).map (fun vs => v :: vs)

/-- Model of the `search_images` handler.  `query_embedding` stands for
`generate_embedding(query)` and `sim` for the float-valued
`calculate_similarity` scoring of one decoded stored vector against the
query embedding. -/
def search_images (query : String) (limit : ℕ) (threshold : ℚ)
    (query_embedding : List ℕ) (sim : List ℕ → List ℕ → ℚ)
    (images : List ImageRecord) : Except SearchError SearchResponse :=
  if images.isEmpty then
    .ok { query := query, total_results := 0, results := [] }
  else
    match decodeAll images with
    | none => .error .internalServerError
    | some stored =>
        let similarities := stored.map (fun s => sim query_embedding s)
        let ranked := rank threshold limit (images.zip similarities)
        let results := ranked.map (fun p => mkImageResponse p.1 p.2)
        .ok { query := query, total_results := results.length,
              results := results }

lemma insertDesc_perm {α : Type} (x : α × ℚ) (l : List (α × ℚ)) :
    (insertDesc x l).Perm (x :: l) := by
  induction l with
  | nil => exact List.Perm.refl _
  | cons y ys ih =>
      by_cases h : y.2 ≤ x.2
      · rw [insertDesc, if_pos h]
      · rw [insertDesc, if_neg h]
        exact (ih.cons y).trans (List.Perm.swap x y ys)

lemma sortDesc_perm {α : Type} (l : List (α × ℚ)) : (sortDesc l).Perm l := by
  induction l with
  | nil => exact List.Perm.refl _
  | cons x xs ih => exact (insertDesc_perm x (sortDesc xs)).trans (ih.cons x)

lemma mem_insertDesc {α : Type} {x z : α × ℚ} {l : List (α × ℚ)}
    (h : z ∈ insertDesc x l) : z = x ∨ z ∈ l := by
  have := (insertDesc_perm x l).mem_iff.mp h
  exact List.mem_cons.mp this

lemma insertDesc_pairwise {α : Type} (x : α × ℚ) (l : List (α × ℚ))
    (hl : l.Pairwise (fun a b => b.2 ≤ a.2)) :
    (insertDesc x l).Pairwise (fun a b => b.2 ≤ a.2) := by
  induction l with
  | nil => simp [insertDesc]
  | cons y ys ih =>
      rw [List.pairwise_cons] at hl
      by_cases h : y.2 ≤ x.2
      · rw [insertDesc, if_pos h, List.pairwise_cons]
        refine ⟨?_, List.pairwise_cons.mpr hl⟩
        intro z hz
        rcases List.mem_cons.mp hz with rfl | hz
        · exact h
        · exact le_trans (hl.1 z hz) h
      · rw [insertDesc, if_neg h, List.pairwise_cons]
        refine ⟨?_, ih hl.2⟩
        intro z hz
        rcases mem_insertDesc hz with rfl | hz
        · exact le_of_lt (lt_of_not_le h)
        · exact hl.1 z hz

/-- The stable sort produces scores in descending order. -/
lemma sortDesc_sorted {α : Type} (l : List (α × ℚ)) :
    (sortDesc l).Pairwise (fun a b => b.2 ≤ a.2) := by
  induction l with
  | nil => simp [sortDesc]
  | cons x xs ih => exact insertDesc_pairwise x (sortDesc xs) ih

/-- Tag every candidate with its position in the input list, starting at
`i`; used to state stability of the ranking. -/
def tagFrom {α : Type} (i : ℕ) : List (α × ℚ) → List ((α × ℕ) × ℚ)
  | [] => []
  | p :: rest => ((p.1, i), p.2) :: tagFrom (i + 1) rest

/-- Candidates tagged with their original input positions. -/
def tagIdx {α : Type} (l : List (α × ℚ)) : List ((α × ℕ) × ℚ) := tagFrom 0 l

lemma tagFrom_le_idx {α : Type} (i : ℕ) (l : List (α × ℚ)) :
    ∀ y ∈ tagFrom i l, i ≤ y.1.2 := by
  induction l generalizing i with
  | nil => intro y hy; simp [tagFrom] at hy
  | cons p rest ih =>
      intro y hy
      rcases List.mem_cons.mp hy with rfl | hy
      · exact le_refl i
      · exact le_trans (Nat.le_succ i) (ih (i + 1) y hy)

lemma tagFrom_pairwise_idx {α : Type} (i : ℕ) (l : List (α × ℚ)) :
    (tagFrom i l).Pairwise (fun a b => a.1.2 < b.1.2) := by
  induction l generalizing i with
  | nil => simp [tagFrom]
  | cons p rest ih =>
      rw [tagFrom, List.pairwise_cons]
      exact ⟨fun y hy => lt_of_lt_of_le (Nat.lt_succ_self i)
        (tagFrom_le_idx (i + 1) rest y hy), ih (i + 1)⟩

lemma insertDesc_pairwise_strict {α : Type} (x : (α × ℕ) × ℚ)
    (l : List ((α × ℕ) × ℚ))
    (hl : l.Pairwise (fun a b => b.2 < a.2 ∨ (a.2 = b.2 ∧ a.1.2 < b.1.2)))
    (hx : ∀ y ∈ l, x.1.2 < y.1.2) :
    (insertDesc x l).Pairwise
      (fun a b => b.2 < a.2 ∨ (a.2 = b.2 ∧ a.1.2 < b.1.2)) := by
  induction l with
  | nil => simp [insertDesc]
  | cons y ys ih =>
      rw [List.pairwise_cons] at hl
      by_cases h : y.2 ≤ x.2
      · rw [insertDesc, if_pos h, List.pairwise_cons]
        refine ⟨?_, List.pairwise_cons.mpr hl⟩
        intro z hz
        rcases List.mem_cons.mp hz with rfl | hz
        · rcases lt_or_eq_of_le h with hlt | heq
          · exact Or.inl hlt
          · exact Or.inr ⟨heq.symm, hx z (List.mem_cons_self z ys)⟩
        · have hzy : z.2 ≤ y.2 := by
            rcases hl.1 z hz with h1 | h1
            · exact le_of_lt h1
            · exact le_of_eq h1.1.symm
          rcases lt_or_eq_of_le (le_trans hzy h) with hlt | heq
          · exact Or.inl hlt
          · exact Or.inr ⟨heq.symm, hx z (List.mem_cons_of_mem y hz)⟩
      · rw [insertDesc, if_neg h, List.pairwise_cons]
        refine ⟨?_, ih hl.2 (fun z hz => hx z (List.mem_cons_of_mem y hz))⟩
        intro z hz
        rcases mem_insertDesc hz with rfl | hz
        · exact Or.inl (lt_of_not_le h)
        · exact hl.1 z hz

lemma sortDesc_pairwise_strict {α : Type} (l : List ((α × ℕ) × ℚ))
    (hIdx : l.Pairwise (fun a b => a.1.2 < b.1.2)) :
    (sortDesc l).Pairwise
      (fun a b => b.2 < a.2 ∨ (a.2 = b.2 ∧ a.1.2 < b.1.2)) := by
  induction l with
  | nil => simp [sortDesc]
  | cons x xs ih =>
      rw [List.pairwise_cons] at hIdx
      refine insertDesc_pairwise_strict x (sortDesc xs) (ih hIdx.2) ?_
      intro y hy
      exact hIdx.1 y ((sortDesc_perm xs).mem_iff.mp hy)

/-- C2: the ranking step orders candidates by strictly descending score,
breaking score ties by original input position (first seen wins), so two
runs of the ranking on the same inputs — the ranking being a pure function —
return the identical ordering, tie-break included. -/
theorem rank_desc_stable_deterministic {α : Type} (threshold : ℚ) (limit : ℕ)
    (l : List (α × ℚ)) :
    (rank threshold limit (tagIdx l)).Pairwise
        (fun a b => b.2 < a.2 ∨ (a.2 = b.2 ∧ a.1.2 < b.1.2)) ∧
      rank threshold limit (tagIdx l) = rank threshold limit (tagIdx l) := by
  constructor
  · have hIdx := (tagFrom_pairwise_idx 0 l).filter
      (fun p => decide (threshold ≤ p.2))
    have := sortDesc_pairwise_strict _ hIdx
    exact this.sublist (List.take_sublist _ _)
  · rfl

lemma rank_complete {α : Type} (thr : ℚ) (lim : ℕ) (pairs : List (α × ℚ)) :
    ∀ p ∈ pairs.filter (fun p => thr ≤ p.2),
      p ∈ rank thr lim pairs ∨ ∀ w ∈ rank thr lim pairs, p.2 ≤ w.2 := by
  intro p hp
  have hpf : p ∈ sortDesc (pairs.filter (fun p => thr ≤ p.2)) :=
    (sortDesc_perm _).mem_iff.mpr hp
  have hsplit := List.take_append_drop lim
    (sortDesc (pairs.filter (fun p => thr ≤ p.2)))
  rw [← hsplit] at hpf
  rcases List.mem_append.mp hpf with hin | hdrop
  · exact Or.inl hin
  · right
    intro w hw
    have hpw := sortDesc_sorted (pairs.filter (fun p => thr ≤ p.2))
    rw [← hsplit] at hpw
    exact (List.pairwise_append.mp hpw).2.2 w hw p hdrop

/-- C3: whenever the search handler answers successfully, at most `limit`
results are returned, the reported `total_results` equals the number of
returned results, and truncation happens only after filtering and sorting
the full candidate set: every threshold-passing candidate is either
returned by the ranking step or scores no higher than every returned
candidate. -/
theorem search_limit_total_fullset (q : String) (lim : ℕ) (thr : ℚ)
    (qe : List ℕ) (sim : List ℕ → List ℕ → ℚ) (imgs : List ImageRecord)
    (r : SearchResponse)
    (h : search_images q lim thr qe sim imgs = .ok r) :
    r.results.length ≤ lim ∧ r.total_results = r.results.length ∧
      ∀ stored, decodeAll imgs = some stored →
        ∀ p ∈ (imgs.zip (stored.map (fun s => sim qe s))).filter
            (fun p => thr ≤ p.2),
          p ∈ rank thr lim (imgs.zip (stored.map (fun s => sim qe s))) ∨
            ∀ w ∈ rank thr lim (imgs.zip (stored.map (fun s => sim qe s))),
              p.2 ≤ w.2 := by
  by_cases he : imgs.isEmpty
  · obtain rfl : imgs = [] := List.isEmpty_iff.mp he
    rw [search_images] at h
    simp only [List.isEmpty_nil, if_true] at h
    obtain rfl : ({ query := q, total_results := 0, results := [] } :
        SearchResponse) = r := Except.ok.inj h
    refine ⟨Nat.zero_le lim, rfl, ?_⟩
    intro stored hst p hp
    simp at hp
  · rw [search_images, if_neg he] at h
    cases hd : decodeAll imgs with
    | none => rw [hd] at h; cases h
    | some stored0 =>
        rw [hd] at h
        obtain rfl := Except.ok.inj h
        refine ⟨?_, rfl, ?_⟩
        · rw [List.length_map]
          exact le_trans (List.length_take_le lim _) (le_refl lim)
        · intro stored hst
          obtain rfl : stored0 = stored := Option.some.inj hst
          exact rank_complete thr lim _

/-- Witness for C3: a one-record store answered successfully. -/
theorem search_limit_total_fullset_witness :
    search_images "q" 3 0 []
        (fun _ _ => 1)
        [{ id := 1, filename := "a.jpg", caption := "a cat",
           embedding := serialize_embedding [7], upload_time := "t1",
           file_size := 10, content_type := "image/jpeg" }] =
      .ok { query := "q", total_results := 1,
            results := [mkImageResponse
              { id := 1, filename := "a.jpg", caption := "a cat",
                embedding := serialize_embedding [7], upload_time := "t1",
                file_size := 10, content_type := "image/jpeg" } 1] } ∧
      ({ query := "q", total_results := 1,
         results := [mkImageResponse
           { id := 1, filename := "a.jpg", caption := "a cat",
             embedding := serialize_embedding [7], upload_time := "t1",
             file_size := 10, content_type := "image/jpeg" } 1] } :
          SearchResponse).results.length ≤ 3 :=
  ⟨rfl,
    (search_limit_total_fullset "q" 3 0 [] (fun _ _ => 1)
      [{ id := 1, filename := "a.jpg", caption := "a cat",
         embedding := serialize_embedding [7], upload_time := "t1",
         file_size := 10, content_type := "image/jpeg" }] _ rfl).1⟩

/-- C4 counterexample: a two-record store in which only the second record's
blob is corrupt.  The search does not skip the corrupt record and return
the healthy one: the decode failure propagates to the handler's generic
`except` clause and the whole search aborts with HTTP 500. -/
theorem search_corrupt_blob_aborts :
    search_images "q" 3 0 [] (fun _ _ => 1)
        [{ id := 1, filename := "a.jpg", caption := "a cat",
           embedding := serialize_embedding [7], upload_time := "t1",
           file_size := 10, content_type := "image/jpeg" },
         { id := 2, filename := "b.jpg", caption := "a dog",
           embedding := [0, 1, 2], upload_time := "t2",
           file_size := 11, content_type := "image/jpeg" }] =
      .error .internalServerError ∧
      deserialize_embedding [0, 1, 2] = none :=
  ⟨rfl, rfl⟩

lemma decodeAll_eq_none (imgs : List ImageRecord)
    (h : ∃ img ∈ imgs, deserialize_embedding img.embedding = none) :
    decodeAll imgs = none := by
  induction imgs with
  | nil => rcases h with ⟨img, hmem, _⟩; cases hmem
  | cons a rest ih =>
      rcases h with ⟨img, hmem, hfail⟩
      rcases List.mem_cons.mp hmem with rfl | hmem
      · rw [decodeAll, hfail]
      · cases hda : deserialize_embedding a.embedding with
        | none => rw [decodeAll, hda]
        | some v =>
            rw [decodeAll, hda, ih ⟨img, hmem, hfail⟩]
            rfl

/-- C4 amended: if any stored record's vector blob fails to deserialize,
the whole search fails with HTTP 500 (logged by the generic handler); no
per-item skip happens and no remaining item is scored or returned. -/
theorem search_corrupt_blob_fails_whole_search (q : String) (lim : ℕ)
    (thr : ℚ) (qe : List ℕ) (sim : List ℕ → List ℕ → ℚ)
    (imgs : List ImageRecord)
    (h : ∃ img ∈ imgs, deserialize_embedding img.embedding = none) :
    search_images q lim thr qe sim imgs = .error .internalServerError := by
  cases imgs with
  | nil => rcases h with ⟨img, hmem, _⟩; cases hmem
  | cons a rest =>
      rw [search_images, if_neg (by rw [List.isEmpty_cons]; exact Bool.false_ne_true)]
      rw [decodeAll_eq_none (a :: rest) h]

/-- Witness for the amended C4 at a concrete one-record store with a
corrupt blob. -/
theorem search_corrupt_blob_fails_whole_search_witness :
    (∃ img ∈ [({ id := 2, filename := "b.jpg", caption := "a dog",
                 embedding := [0, 1, 2], upload_time := "t2",
                 file_size := 11,
                 content_type := "image/jpeg" } : ImageRecord)],
      deserialize_embedding img.embedding = none) ∧
      search_images "q" 5 0 [] (fun _ _ => 1)
          [{ id := 2, filename := "b.jpg", caption := "a dog",
             embedding := [0, 1, 2], upload_time := "t2", file_size := 11,
             content_type := "image/jpeg" }] =
        .error .internalServerError :=
  ⟨⟨_, List.mem_singleton_self _, rfl⟩,
    search_corrupt_blob_fails_whole_search "q" 5 0 [] (fun _ _ => 1) _
      ⟨_, List.mem_singleton_self _, rfl⟩⟩

lemma filter_sublist_filter_of_imp {α : Type} (p q : α → Bool) (l : List α)
    (h : ∀ a, p a = true → q a = true) :
    List.Sublist (l.filter p) (l.filter q) := by
  induction l with
  | nil => simp
  | cons a t ih =>
      by_cases hpa : p a = true
      · rw [List.filter_cons, if_pos hpa, List.filter_cons, if_pos (h a hpa)]
        exact ih.cons₂ a
      · rw [List.filter_cons, if_neg hpa, List.filter_cons]
        by_cases hqa : q a = true
        · rw [if_pos hqa]; exact ih.cons a
        · rw [if_neg hqa]; exact ih

/-- C7: for a fixed store, query, and limit, raising the similarity
threshold never increases the number of returned results. -/
theorem search_threshold_monotone (q : String) (lim : ℕ) (t1 t2 : ℚ)
    (qe : List ℕ) (sim : List ℕ → List ℕ → ℚ) (imgs : List ImageRecord)
    (r1 r2 : SearchResponse) (ht : t1 ≤ t2)
    (h1 : search_images q lim t1 qe sim imgs = .ok r1)
    (h2 : search_images q lim t2 qe sim imgs = .ok r2) :
    r2.total_results ≤ r1.total_results := by
  by_cases he : imgs.isEmpty
  · rw [search_images, if_pos he] at h1 h2
    obtain rfl := Except.ok.inj h1
    obtain rfl := Except.ok.inj h2
    exact le_refl 0
  · rw [search_images, if_neg he] at h1 h2
    cases hd : decodeAll imgs with
    | none => rw [hd] at h1; cases h1
    | some stored =>
        rw [hd] at h1 h2
        obtain rfl := Except.ok.inj h1
        obtain rfl := Except.ok.inj h2
        simp only [List.length_map, rank, List.length_take,
          (sortDesc_perm _).length_eq]
        refine min_le_min (le_refl lim) ?_
        refine List.Sublist.length_le ?_
        refine filter_sublist_filter_of_imp _ _ _ ?_
        intro a ha
        rw [decide_eq_true_eq] at ha ⊢
        exact le_trans ht ha

/-- Witness for C7 at a one-record store and thresholds `0 ≤ 1`. -/
theorem search_threshold_monotone_witness :
    (0 : ℚ) ≤ 1 ∧
      ({ query := "q", total_results := 0, results := [] } :
          SearchResponse).total_results ≤
        ({ query := "q", total_results := 1,
           results := [mkImageResponse
             { id := 1, filename := "a.jpg", caption := "a cat",
               embedding := serialize_embedding [7], upload_time := "t1",
               file_size := 10, content_type := "image/jpeg" } 0] } :
            SearchResponse).total_results :=
  ⟨by norm_num,
    search_threshold_monotone "q" 3 0 1 [] (fun _ _ => 0)
      [{ id := 1, filename := "a.jpg", caption := "a cat",
         embedding := serialize_embedding [7], upload_time := "t1",
         file_size := 10, content_type := "image/jpeg" }]
      _ _ (by norm_num) rfl rfl⟩

/-- C9: searching an empty store succeeds with `total_results = 0` and an
empty result list, for every query, limit, and threshold — never an
error. -/
theorem search_empty_store (q : String) (lim : ℕ) (thr : ℚ) (qe : List ℕ)
    (sim : List ℕ → List ℕ → ℚ) :
    search_images q lim thr qe sim [] =
      .ok { query := q, total_results := 0, results := [] } :=
  rfl

/-!
Ingestion pipeline, `upload_image` in `app/routers/images.py`.  The handler
validates content type and extension (400 before any write), reads the
bytes and rejects oversized files (400 before any write), writes the bytes
under a fresh unique name, verifies the written file is a loadable image
(on failure `os.remove(file_path)` runs before the 400 is raised), then
captions, embeds, serializes and stores the record.  Any exception from
those later stages reaches the generic handler, which removes the written
file when it exists and answers 500, so a failed commit leaves neither the
file nor a database record.  The external stages — PIL verification,
caption generation, embedding generation, the database commit, and the
generated id/filename/timestamp — enter the model as an environment record;
`none`/`false` mean the stage raised.
-/

/-- Failure kinds of the upload handler: the 400s of validation and of a
corrupt image, and the generic 500. -/
inductive UploadError where
  | validationError : UploadError
  | invalidImage : UploadError
  | internalError : UploadError
deriving DecidableEq

/-- Response body of a successful upload. -/
structure UploadResponse where
  id : ℕ
  filename : String
  caption : String
  upload_time : String
  file_size : ℕ
  message : String
deriving DecidableEq

/-- Outcomes of the stages the upload handler calls out to. -/
structure UploadEnv where
  content_type_ok : Bool
  extension_ok : Bool
  image_verifies : Bool
  caption : Option String
  embedding : Option (List ℕ)
  db_commit_ok : Bool
  assigned_id : ℕ
  unique_filename : String
  upload_time : String
deriving DecidableEq

/-- Observable state after one upload attempt: the HTTP answer, whether the
just-written file is still on disk, and the stored record if any. -/
structure UploadOutcome where
  response : Except UploadError UploadResponse
  file_on_disk : Bool
  db_record : Option (String × List ℕ)

/-- Model of the `upload_image` handler. -/
def upload_image (maxFileSize : ℕ) (env : UploadEnv) (content : List ℕ) :
    UploadOutcome :=
  if ¬env.content_type_ok then ⟨.error .validationError, false, none⟩
  else if ¬env.extension_ok then ⟨.error .validationError, false, none⟩
  else if maxFileSize < content.length then
    ⟨.error .validationError, false, none⟩
  else if ¬env.image_verifies then ⟨.error .invalidImage, false, none⟩
  else
    match env.caption with
    | none => ⟨.error .internalError, false, none⟩
    | some cap =>
        match env.embedding with
        | none => ⟨.error .internalError, false, none⟩
        | some emb =>
            if ¬env.db_commit_ok then ⟨.error .internalError, false, none⟩
            else
              ⟨.ok { id := env.assigned_id, filename := env.unique_filename,
                     caption := cap, upload_time := env.upload_time,
                     file_size := content.length,
                     message := "Image uploaded and processed successfully" },
                true, some (cap, serialize_embedding emb)⟩

/-- C6: every failing upload attempt — in particular one that fails after
the bytes were written, at image verification, captioning, embedding, or
the database store — leaves no file on disk and no stored record: the
compensating delete runs before the failure is reported. -/
lemma upload_image_shape (maxFileSize : ℕ) (env : UploadEnv)
    (content : List ℕ) :
    (∃ e, upload_image maxFileSize env content =
        ⟨.error e, false, none⟩) ∨
      ∃ resp rec, upload_image maxFileSize env content =
        ⟨.ok resp, true, some rec⟩ := by
  unfold upload_image
  repeat' split
  all_goals first
    | exact Or.inl ⟨_, rfl⟩
    | exact Or.inr ⟨_, _, rfl⟩

theorem upload_cleanup_on_failure (maxFileSize : ℕ) (env : UploadEnv)
    (content : List ℕ) (e : UploadError)
    (h : (upload_image maxFileSize env content).response = .error e) :
    (upload_image maxFileSize env content).file_on_disk = false ∧
      (upload_image maxFileSize env content).db_record = none := by
  rcases upload_image_shape maxFileSize env content with ⟨e0, hsh⟩ |
    ⟨resp, rec, hsh⟩
  · rw [hsh]
    exact ⟨rfl, rfl⟩
  · rw [hsh] at h
    cases h

/-- Witness for C6: a database-commit failure after the bytes were
written. -/
theorem upload_cleanup_on_failure_witness :
    (upload_image 100
        { content_type_ok := true, extension_ok := true,
          image_verifies := true, caption := some "a cat",
          embedding := some [7], db_commit_ok := false, assigned_id := 1,
          unique_filename := "u.jpg", upload_time := "t" }
        [1, 2]).response = .error .internalError ∧
      (upload_image 100
          { content_type_ok := true, extension_ok := true,
            image_verifies := true, caption := some "a cat",
            embedding := some [7], db_commit_ok := false, assigned_id := 1,
            unique_filename := "u.jpg", upload_time := "t" }
          [1, 2]).file_on_disk = false ∧
        (upload_image 100
            { content_type_ok := true, extension_ok := true,
              image_verifies := true, caption := some "a cat",
              embedding := some [7], db_commit_ok := false, assigned_id := 1,
              unique_filename := "u.jpg", upload_time := "t" }
            [1, 2]).db_record = none :=
  ⟨rfl,
    upload_cleanup_on_failure 100
      { content_type_ok := true, extension_ok := true,
        image_verifies := true, caption := some "a cat",
        embedding := some [7], db_commit_ok := false, assigned_id := 1,
        unique_filename := "u.jpg", upload_time := "t" }
      [1, 2] .internalError rfl⟩

/-!
Query-parameter validation of the search endpoint.  The handler declares
`limit: int = Query(3, ge=1, le=20)` and
`threshold: float = Query(0.0, ge=0.0, le=1.0)`; the framework applies the
default when the parameter is absent and rejects an out-of-range value with
422 before the handler body — and hence before any embedding is computed.
-/

/-- Model of the framework's validation of the two declared query
parameters: apply the defaults, then enforce `1 <= limit <= 20` and
`0.0 <= threshold <= 1.0`. -/
def validate_search_params (limitParam : Option ℤ)
    (thresholdParam : Option ℚ) : Option (ℤ × ℚ) :=
  let l := limitParam.getD 3
  let t := thresholdParam.getD 0
  if 1 ≤ l ∧ l ≤ 20 ∧ 0 ≤ t ∧ t ≤ 1 then some (l, t) else none

/-- Search endpoint as reached over HTTP: parameter validation, then the
handler body. -/
def search_endpoint (limitParam : Option ℤ) (thresholdParam : Option ℚ)
    (q : String) (qe : List ℕ) (sim : List ℕ → List ℕ → ℚ)
    (imgs : List ImageRecord) : Except SearchError SearchResponse :=
  match validate_search_params limitParam thresholdParam with
  | none => .error .unprocessableEntity
  | some (l, t) => search_images q l.toNat t qe sim imgs

/-- C10: absent parameters default to `limit = 3` and `threshold = 0.0`;
an accepted pair always satisfies `1 <= limit <= 20` and
`0.0 <= threshold <= 1.0`; and a request failing validation is answered
with 422 before the handler body — so before any embedding is computed. -/
theorem search_params_validated :
    validate_search_params none none = some (3, 0) ∧
      (∀ lo tp l t, validate_search_params lo tp = some (l, t) →
        1 ≤ l ∧ l ≤ 20 ∧ 0 ≤ t ∧ t ≤ 1) ∧
      ∀ lo tp, validate_search_params lo tp = none →
        ∀ q qe sim imgs, search_endpoint lo tp q qe sim imgs =
          .error .unprocessableEntity := by
  refine ⟨by decide, ?_, ?_⟩
  · intro lo tp l t h
    rw [validate_search_params] at h
    by_cases hc : 1 ≤ lo.getD 3 ∧ lo.getD 3 ≤ 20 ∧ 0 ≤ tp.getD 0 ∧
        tp.getD 0 ≤ 1
    · rw [if_pos hc] at h
      obtain ⟨rfl, rfl⟩ := Prod.mk.injEq .. ▸ Option.some.inj h
      exact hc
    · rw [if_neg hc] at h
      cases h
  · intro lo tp h q qe sim imgs
    rw [search_endpoint, h]

/-- Witness for C10: the accepted pair `(5, 1)` lies in range, and
`limit = 25` is rejected with 422. -/
theorem search_params_validated_witness :
    (1 ≤ (5 : ℤ) ∧ (5 : ℤ) ≤ 20 ∧ (0 : ℚ) ≤ 1 ∧ (1 : ℚ) ≤ 1) ∧
      search_endpoint (some 25) none "q" [] (fun _ _ => 0) [] =
        .error .unprocessableEntity :=
  ⟨search_params_validated.2.1 (some 5) (some 1) 5 1 (by decide),
    search_params_validated.2.2 (some 25) none (by decide) "q" []
      (fun _ _ => 0) []⟩
